import Mathlib

/-!
Retrieval core of `server.js`

A shallow embedding of the pure part of `src/server.js`: `cosineSimilarity`,
`BUSINESS_DATA`, `createSimpleEmbedding`, `retrieveRelevantDocs` and the
result-selection logic of `generateResponse`.

Conventions of the embedding.

* A JavaScript string is a Lean `String`; the functions work on its list of
  characters.  `toLowerCase` is modelled on the ASCII range (the vocabulary and the
  knowledge base are ASCII).
* Vectors are lists of integers and the arithmetic on them is exact.  A similarity
  is kept as the three integers it is built from, `Similarity.toReal` gives its
  value as a real number, and `Similarity.compare` decides the order of two values.
* `Array.prototype.sort` is stable; it is modelled by a stable insertion sort driven
  by the comparator of the source.
-/

namespace Server

/-! ## Strings -/

/-- Code points that ECMAScript treats as white space or line terminator: the class
`\s` of a regular expression and the characters removed by `trim`. -/
def isWhiteSpace (c : Char) : Bool :=
  let n := c.toNat
  n == 0x9 || n == 0xA || n == 0xB || n == 0xC || n == 0xD || n == 0x20 || n == 0xA0 ||
  n == 0x1680 || (0x2000 ≤ n && n ≤ 0x200A) || n == 0x2028 || n == 0x2029 ||
  n == 0x202F || n == 0x205F || n == 0x3000 || n == 0xFEFF

/-- Lower-casing of a string, `text.toLowerCase()`, on the ASCII range. -/
def toLowerCase (text : List Char) : List Char :=
  text.map Char.toLower

/-- Worker of `splitWhitespace`.  `inSep` tells whether the previous character was
white space, `cur` is the token read so far, reversed. -/
def splitGo : List Char → Bool → List Char → List (List Char)
  | [], _, cur => [cur.reverse]
  | c :: cs, inSep, cur =>
    if isWhiteSpace c then
      if inSep then splitGo cs true cur
      else cur.reverse :: splitGo cs true []
    else splitGo cs false (c :: cur)

/-- The tokens of `text.split(/\s+/)`: the pieces between maximal runs of white space.
A leading or trailing run leaves an empty token at that end, and the empty string
gives the single empty token. -/
def splitWhitespace (text : List Char) : List (List Char) :=
  splitGo text false []

/-- Substring test `s.includes(t)`. -/
def includes : List Char → List Char → Bool
  | [], t => t.isEmpty
  | c :: cs, t => t.isPrefixOf (c :: cs) || includes cs t

/-! ## Knowledge base -/

/-- An entry of `BUSINESS_DATA`. -/
structure Doc where
  id : Nat
  content : String
  category : String
  deriving DecidableEq, Repr

/-- The knowledge base of the source. -/
def BUSINESS_DATA : List Doc := [
  { id := 1,
    content := "We specialize in selling premium NFC cards that allow you to share your digital information instantly with just a tap. We offer over 800+ unique designs to match your style and personality.",
    category := "about" },
  { id := 2,
    content := "We are currently not taking orders at the moment, but we will be back soon, In Sha Allah! Please check back later or leave us a message and we'll notify you when we resume operations.",
    category := "status" },
  { id := 3,
    content := "Our standard NFC cards are priced at 500 Taka. Custom orders are available and pricing may vary based on your specific customization requirements.",
    category := "pricing" },
  { id := 4,
    content := "We offer fast delivery within 2-3 days of order confirmation. Once we resume operations, we'll ensure your NFC cards reach you quickly.",
    category := "delivery" },
  { id := 5,
    content := "We specialize in custom NFC card orders! You can customize the design, and we can even input your personal portfolio, contact information, social media links, or business details directly into the card.",
    category := "customization" },
  { id := 6,
    content := "We have an extensive collection of over 800+ designs to choose from! Whether you want something professional, creative, minimalist, or bold, we have a design that matches your personality.",
    category := "designs" },
  { id := 7,
    content := "Our NFC cards can store your personal portfolio, business card information, social media profiles, website links, contact details, and more. Just tap your card on any smartphone to instantly share your information!",
    category := "features" },
  { id := 8,
    content := "Custom orders may have different pricing depending on the level of customization - such as special designs, premium materials, or complex information programming. Contact us for a personalized quote!",
    category := "custom-pricing" },
  { id := 9,
    content := "NFC cards are the modern way to network! Instead of traditional paper business cards, simply tap your NFC card on someone's phone and all your information transfers instantly. It's eco-friendly, professional, and unforgettable.",
    category := "benefits" },
  { id := 10,
    content := "Although we're temporarily not accepting orders, feel free to browse our designs and plan your custom NFC card. We'll be back soon, In Sha Allah, and we can't wait to serve you!",
    category := "status" },
  { id := 11,
    content := "You can reach us for inquiries even while we're not operating. Leave us a message and we'll get back to you as soon as we resume operations, In Sha Allah.",
    category := "contact" },
  { id := 12,
    content := "Our NFC cards work with all modern smartphones - both Android and iPhone. No app installation required! Just tap and share your information instantly.",
    category := "compatibility" }
]

/-! ## Embedding -/

/-- The fixed vocabulary of `createSimpleEmbedding`, in source order. -/
def vocabulary : List String := [
  "nfc", "card", "price", "cost", "taka", "delivery", "custom", "design",
  "order", "buy", "purchase", "portfolio", "contact", "business", "tap",
  "phone", "smartphone", "information", "share", "digital", "modern",
  "customization", "designs", "available", "sha", "allah", "soon", "return"
]

/-- The component of the embedding for one vocabulary word: the number of tokens
`w` with `w.includes(word) || word.includes(w)`. -/
def countMatches (words : List (List Char)) (word : String) : Int :=
  ((words.filter fun w => includes w word.toList || includes word.toList w).length : Nat)

/-- The embedding of a text, `createSimpleEmbedding(text)`. -/
def createSimpleEmbedding (text : String) : List Int :=
  let words := splitWhitespace (toLowerCase text.toList)
  vocabulary.map fun word => countMatches words word

/-! ## Cosine similarity -/

/-- The three accumulators of the loop of `cosineSimilarity`. -/
structure Sums where
  dotProduct : Int
  normA : Int
  normB : Int
  deriving DecidableEq, Repr

/-- The loop of `cosineSimilarity`, run from the accumulators `acc` over the remaining
components.  It is only reached with vectors of equal length. -/
def accumulate : List Int → List Int → Sums → Sums
  | a :: vecA, b :: vecB, acc =>
    accumulate vecA vecB
      ⟨acc.dotProduct + a * b, acc.normA + a * a, acc.normB + b * b⟩
  | _, _, acc => acc

/-- The value returned by `cosineSimilarity`: the literal `0` of one of its two
guards, or the quotient `dotProduct / (Math.sqrt(normA) * Math.sqrt(normB))`, kept as
its three integers. -/
inductive Similarity
  | zero
  | ratio (dotProduct normA normB : Int)
  deriving DecidableEq, Repr

/-- Cosine similarity of two vectors, `cosineSimilarity(vecA, vecB)`. -/
def cosineSimilarity (vecA vecB : List Int) : Similarity :=
  if vecA.length ≠ vecB.length then .zero
  else
    let s := accumulate vecA vecB ⟨0, 0, 0⟩
    if s.normA = 0 ∨ s.normB = 0 then .zero
    else .ratio s.dotProduct s.normA s.normB

namespace Similarity

/-- The real number a similarity stands for. -/
noncomputable def toReal : Similarity → ℝ
  | zero => 0
  | ratio d a b => (d : ℝ) / (Real.sqrt a * Real.sqrt b)

/-- A returned quotient is well formed when both radicands are positive: then the
square roots are defined and the divisor is not zero. -/
def WellFormed : Similarity → Prop
  | zero => True
  | ratio _ a b => 0 < a ∧ 0 < b

/-- Numerator of a similarity written as `num / sqrt den`. -/
def num : Similarity → Int
  | zero => 0
  | ratio d _ _ => d

/-- Radicand of the denominator of a similarity written as `num / sqrt den`. -/
def den : Similarity → Int
  | zero => 1
  | ratio _ a b => a * b

/-- The order of two similarities, decided on integers: `x / sqrt m` and `y / sqrt n`
compare like `x * |x| * n` and `y * |y| * m`. -/
def compare (s t : Similarity) : Ordering :=
  Ord.compare (s.num * |s.num| * t.den) (t.num * |t.num| * s.den)

/-- The expression `similarity || 0`: a value equal to zero becomes the literal `0`. -/
def orZero (s : Similarity) : Similarity :=
  if s.num = 0 then zero else s

end Similarity

/-! ## Retrieval -/

/-- A knowledge-base entry with its score, `{ ...doc, score: similarity }`. -/
structure ScoredDoc extends Doc where
  score : Similarity
  deriving DecidableEq, Repr

/-- Insertion of `a` in front of the first element it does not have to follow. -/
def insertSorted {α : Type} (cmp : α → α → Ordering) (a : α) : List α → List α
  | [] => [a]
  | b :: l => if cmp a b = .gt then b :: insertSorted cmp a l else a :: b :: l

/-- Stable sort by a comparator, `array.sort(cmp)`: `cmp a b` stands for the sign of the
number the comparator returns, and `a` moves behind `b` only when it is positive. -/
def sort {α : Type} (cmp : α → α → Ordering) : List α → List α
  | [] => []
  | a :: l => insertSorted cmp a (sort cmp l)

/-- The comparator `(a, b) => b.score - a.score`, as the sign of the difference. -/
def byScoreDesc (a b : ScoredDoc) : Ordering :=
  Similarity.compare b.score a.score

/-- The array `scores` of `retrieveRelevantDocs`: every entry with its similarity to the
query. -/
def scores (query : String) : List ScoredDoc :=
  let queryEmbedding := createSimpleEmbedding query
  BUSINESS_DATA.map fun doc =>
    let docEmbedding := createSimpleEmbedding doc.content
    let similarity := (cosineSimilarity queryEmbedding docEmbedding).orZero
    { doc with score := similarity }

/-- The `topK` best entries for a query, `retrieveRelevantDocs(query, topK)`. -/
def retrieveRelevantDocs (query : String) (topK : Nat := 3) : List ScoredDoc :=
  (sort byScoreDesc (scores query)).take topK

/-! ## Response generation -/

/-- Removal of leading and trailing white space, `s.trim()`. -/
def trim (s : List Char) : List Char :=
  ((s.dropWhile isWhiteSpace).reverse.dropWhile isWhiteSpace).reverse

/-- The `context` of `generateResponse`: the contents of the three retrieved entries
joined by a blank line. -/
def context (userMessage : String) : String :=
  "\n\n".intercalate ((retrieveRelevantDocs userMessage 3).map fun doc => doc.content)

/-- The system prompt built around the retrieved context. -/
def systemPrompt (context : String) : String :=
  "You are a helpful customer service assistant for an NFC Card business.\n\n" ++
  "Context from our business knowledge base:\n" ++
  context ++ "\n\n" ++
  "Instructions:\n" ++
  "- Answer based on the context provided above\n" ++
  "- Be friendly, helpful, and use \"In Sha Allah\" naturally when talking about future operations\n" ++
  "- If asked about ordering, politely mention we're temporarily closed but will return soon, In Sha Allah\n" ++
  "- Keep responses concise (2-3 sentences)\n" ++
  "- Show enthusiasm about our 800+ designs and customization options\n" ++
  "- Emphasize the modern, convenient nature of NFC cards"

/-- What awaiting the completion call can produce: a response whose first choice has a
content string, a response from which reading that content throws, or a rejection,
with the HTTP status of `error.response` when there is one. -/
inductive Completion
  | success (content : String)
  | missingContent
  | failure (status : Option Nat)
  deriving DecidableEq, Repr

/-- Reply used when the completion is empty after trimming. -/
def rephraseMessage : String :=
  "I'd be happy to help! Could you please rephrase your question?"

/-- Reply used when the completion call fails with status 429. -/
def highTrafficMessage : String :=
  "I'm experiencing high traffic right now. Please try again in a moment! 🤖"

/-- Reply used for every other failure. -/
def troubleMessage : String :=
  "I'm having trouble processing your request right now. Please leave us a message and we'll get back to you soon, In Sha Allah!"

/-- The reply to a user message, `generateResponse(userMessage)`.  The completion call
is the function `post`, from the system prompt and the user message to its outcome. -/
def generateResponse (post : String → String → Completion) (userMessage : String) : String :=
  match post (systemPrompt (context userMessage)) userMessage with
  | .success content =>
    let finalResponse := String.mk (trim content.toList)
    if finalResponse = "" then rephraseMessage else finalResponse
  | .missingContent => troubleMessage
  | .failure status =>
    if status = some 429 then highTrafficMessage else troubleMessage

end Server

namespace Server

/-! ## The loop of `cosineSimilarity` -/

/-- The embeddings of the twelve entries of `BUSINESS_DATA`, in store order. -/
def docEmbeddings : List (List Int) := [
  [1, 2, 0, 0, 1, 0, 2, 1, 0, 0, 1, 0, 1, 1, 2, 0, 1, 3, 2, 2, 0, 3, 1, 1, 2, 1, 0, 0],
  [0, 1, 0, 0, 1, 0, 1, 0, 2, 0, 1, 1, 1, 2, 1, 0, 1, 4, 3, 1, 0, 3, 0, 1, 2, 2, 1, 0],
  [1, 1, 1, 0, 1, 0, 2, 0, 1, 0, 0, 0, 1, 0, 0, 1, 1, 2, 2, 0, 0, 4, 0, 1, 0, 0, 1, 0],
  [1, 1, 0, 0, 0, 1, 0, 0, 1, 0, 0, 0, 0, 0, 0, 0, 0, 0, 0, 0, 0, 0, 0, 0, 0, 0, 0, 0],
  [1, 2, 0, 0, 0, 0, 2, 1, 2, 0, 0, 2, 1, 2, 0, 0, 0, 3, 0, 0, 0, 1, 0, 0, 0, 0, 0, 0],
  [0, 1, 0, 0, 1, 0, 1, 2, 1, 0, 1, 1, 1, 0, 1, 0, 1, 2, 1, 1, 0, 2, 2, 1, 1, 1, 0, 0],
  [1, 3, 0, 0, 0, 0, 1, 0, 0, 0, 0, 1, 2, 1, 1, 2, 2, 3, 1, 0, 0, 2, 0, 0, 1, 0, 1, 0],
  [0, 1, 0, 0, 1, 0, 3, 1, 2, 0, 2, 1, 3, 1, 1, 1, 2, 5, 1, 1, 0, 5, 1, 1, 1, 1, 1, 0],
  [2, 3, 0, 0, 0, 0, 1, 0, 0, 0, 0, 0, 1, 1, 1, 2, 2, 2, 1, 0, 1, 2, 0, 0, 0, 1, 1, 0],
  [1, 1, 0, 0, 0, 0, 3, 1, 1, 0, 0, 0, 0, 1, 0, 0, 0, 1, 1, 0, 0, 3, 1, 0, 1, 1, 1, 0],
  [0, 1, 0, 0, 1, 0, 3, 0, 0, 0, 3, 0, 1, 3, 1, 0, 1, 3, 2, 1, 0, 4, 0, 1, 2, 2, 1, 0],
  [1, 1, 0, 0, 0, 0, 0, 0, 0, 0, 0, 0, 0, 0, 1, 2, 1, 1, 1, 0, 1, 0, 0, 0, 1, 1, 0, 0]
]

/-- The array `scores` computed from the embedding of the query and the table of
entry embeddings. -/
def scoresFrom (queryEmbedding : List Int) : List ScoredDoc :=
  List.zipWith
    (fun doc docEmbedding =>
      { doc with score := (cosineSimilarity queryEmbedding docEmbedding).orZero })
    BUSINESS_DATA docEmbeddings

/-- The entries of `BUSINESS_DATA`, each with the literal `0` as score. -/
def zeroScores : List ScoredDoc :=
  BUSINESS_DATA.map fun doc => { doc with score := Similarity.zero }

/-- Sum of the products of the paired components. -/
def dotSum : List Int → List Int → Int
  | a :: vecA, b :: vecB => a * b + dotSum vecA vecB
  | _, _ => 0

theorem accumulate_eq (vecA vecB : List Int) (acc : Sums) (h : vecA.length = vecB.length) :
    accumulate vecA vecB acc =
      ⟨acc.dotProduct + dotSum vecA vecB, acc.normA + dotSum vecA vecA,
        acc.normB + dotSum vecB vecB⟩ := by
  induction vecA generalizing vecB acc with
  | nil =>
    cases vecB with
    | nil => simp [accumulate, dotSum]
    | cons b vecB => simp at h
  | cons a vecA ih =>
    cases vecB with
    | nil => simp at h
    | cons b vecB =>
      have h' : vecA.length = vecB.length := by simpa using h
      simp only [accumulate, dotSum, ih vecB _ h']
      simp [add_assoc]

theorem dotSum_self_nonneg (vec : List Int) : 0 ≤ dotSum vec vec := by
  induction vec with
  | nil => simp [dotSum]
  | cons a vec ih =>
    simp only [dotSum]
    nlinarith [mul_self_nonneg a]

theorem dotSum_self_eq_zero (vec : List Int) (h : ∀ x ∈ vec, x = 0) : dotSum vec vec = 0 := by
  induction vec with
  | nil => simp [dotSum]
  | cons a vec ih =>
    have ha : a = 0 := h a (by simp)
    have ih' := ih fun x hx => h x (by simp [hx])
    simp [dotSum, ha, ih']

theorem dotSum_self_pos (vec : List Int) (h : ∃ x ∈ vec, x ≠ 0) : 0 < dotSum vec vec := by
  induction vec with
  | nil => simp at h
  | cons a vec ih =>
    simp only [dotSum]
    have hs := dotSum_self_nonneg vec
    obtain ⟨x, hx, hne⟩ := h
    rcases List.mem_cons.mp hx with rfl | hx'
    · have : 0 < x * x := mul_self_pos.mpr hne
      linarith
    · have := ih ⟨x, hx', hne⟩
      nlinarith [mul_self_nonneg a]

theorem cosineSimilarity_eq (vecA vecB : List Int) (h : vecA.length = vecB.length) :
    cosineSimilarity vecA vecB =
      if dotSum vecA vecA = 0 ∨ dotSum vecB vecB = 0 then .zero
      else .ratio (dotSum vecA vecB) (dotSum vecA vecA) (dotSum vecB vecB) := by
  simp [cosineSimilarity, h, accumulate_eq vecA vecB _ h]

theorem cosineSimilarity_wellFormed (vecA vecB : List Int) :
    (cosineSimilarity vecA vecB).WellFormed := by
  by_cases h : vecA.length = vecB.length
  · rw [cosineSimilarity_eq vecA vecB h]
    split
    · trivial
    · rename_i hne
      push_neg at hne
      exact ⟨lt_of_le_of_ne (dotSum_self_nonneg vecA) (Ne.symm hne.1),
        lt_of_le_of_ne (dotSum_self_nonneg vecB) (Ne.symm hne.2)⟩
  · simp [cosineSimilarity, h, Similarity.WellFormed]

namespace Similarity

theorem den_pos {s : Similarity} (hs : s.WellFormed) : 0 < s.den := by
  cases s with
  | zero => simp [den]
  | ratio d a b => exact mul_pos hs.1 hs.2

theorem toReal_eq {s : Similarity} (hs : s.WellFormed) :
    s.toReal = (s.num : ℝ) / Real.sqrt (s.den : ℝ) := by
  cases s with
  | zero => simp [toReal, num]
  | ratio d a b =>
    have ha : (0 : ℝ) ≤ (a : ℝ) := by exact_mod_cast hs.1.le
    simp [toReal, num, den, Real.sqrt_mul ha]

theorem orZero_wellFormed {s : Similarity} (hs : s.WellFormed) : s.orZero.WellFormed := by
  unfold orZero
  split
  · trivial
  · exact hs

/-- The map `u ↦ u * |u|` is strictly increasing. -/
theorem mul_abs_lt_iff (u v : ℝ) : u * |u| < v * |v| ↔ u < v := by
  constructor
  · intro h
    by_contra hle
    push_neg at hle
    rcases le_total 0 v with hv | hv
    · have hu : 0 ≤ u := le_trans hv hle
      rw [abs_of_nonneg hu, abs_of_nonneg hv] at h
      nlinarith
    · rcases le_total 0 u with hu | hu
      · rw [abs_of_nonneg hu, abs_of_nonpos hv] at h
        nlinarith [mul_self_nonneg u, mul_self_nonneg v]
      · rw [abs_of_nonpos hu, abs_of_nonpos hv] at h
        nlinarith
  · intro h
    rcases le_total 0 u with hu | hu
    · have hv : 0 ≤ v := le_trans hu h.le
      rw [abs_of_nonneg hu, abs_of_nonneg hv]
      nlinarith
    · rcases le_total 0 v with hv | hv
      · rw [abs_of_nonpos hu, abs_of_nonneg hv]
        rcases eq_or_lt_of_le hv with h0 | h0
        · subst h0
          have : u < 0 := h
          nlinarith
        · nlinarith [mul_self_nonneg u]
      · rw [abs_of_nonpos hu, abs_of_nonpos hv]
        nlinarith

/-- The integer comparison decides the order of the real values. -/
theorem compare_eq_gt_iff {s t : Similarity} (hs : s.WellFormed) (ht : t.WellFormed) :
    s.compare t = .gt ↔ t.toReal < s.toReal := by
  have hm : (0 : ℝ) < (s.den : ℝ) := by exact_mod_cast den_pos hs
  have hn : (0 : ℝ) < (t.den : ℝ) := by exact_mod_cast den_pos ht
  have hsm : 0 < Real.sqrt (s.den : ℝ) := Real.sqrt_pos.mpr hm
  have hsn : 0 < Real.sqrt (t.den : ℝ) := Real.sqrt_pos.mpr hn
  rw [toReal_eq hs, toReal_eq ht, div_lt_div_iff₀ hsn hsm, ← mul_abs_lt_iff]
  have e1 : ((t.num : ℝ) * Real.sqrt (s.den : ℝ)) * |(t.num : ℝ) * Real.sqrt (s.den : ℝ)|
      = ((t.num * |t.num| * s.den : ℤ) : ℝ) := by
    rw [abs_mul, abs_of_pos hsm]
    push_cast
    have := Real.mul_self_sqrt hm.le
    linear_combination ((t.num : ℝ) * |(t.num : ℝ)|) * this
  have e2 : ((s.num : ℝ) * Real.sqrt (t.den : ℝ)) * |(s.num : ℝ) * Real.sqrt (t.den : ℝ)|
      = ((s.num * |s.num| * t.den : ℤ) : ℝ) := by
    rw [abs_mul, abs_of_pos hsn]
    push_cast
    have := Real.mul_self_sqrt hn.le
    linear_combination ((s.num : ℝ) * |(s.num : ℝ)|) * this
  rw [e1, e2, Int.cast_lt]
  unfold compare
  exact compare_gt_iff_gt

end Similarity

/-! ## The stable sort -/

section StableSort

variable {α : Type} (cmp : α → α → Ordering)

theorem insertSorted_perm (a : α) (l : List α) : (insertSorted cmp a l).Perm (a :: l) := by
  induction l with
  | nil => simp [insertSorted]
  | cons b l ih =>
    simp only [insertSorted]
    split
    · exact (ih.cons b).trans (List.Perm.swap a b l)
    · exact List.Perm.refl _

theorem sort_perm (l : List α) : (sort cmp l).Perm l := by
  induction l with
  | nil => simp [sort]
  | cons a l ih =>
    simp only [sort]
    exact (insertSorted_perm cmp a _).trans (ih.cons a)

theorem sort_length (l : List α) : (sort cmp l).length = l.length :=
  (sort_perm cmp l).length_eq

theorem mem_sort {a : α} {l : List α} : a ∈ sort cmp l ↔ a ∈ l :=
  (sort_perm cmp l).mem_iff

/-- Inserting into a list that is non-increasing for `key` keeps it so, when the
comparator is positive exactly on the pairs that are in increasing order. -/
theorem insertSorted_pairwise (key : α → ℝ) (a : α) (l : List α)
    (h : ∀ b ∈ l, (cmp a b = .gt ↔ key a < key b))
    (hl : l.Pairwise fun x y => key y ≤ key x) :
    (insertSorted cmp a l).Pairwise fun x y => key y ≤ key x := by
  induction l with
  | nil => simp [insertSorted]
  | cons b l ih =>
    have hb := h b (by simp)
    have hl' := List.pairwise_cons.mp hl
    simp only [insertSorted]
    split
    · rename_i hgt
      have hab : key a < key b := hb.mp hgt
      refine List.pairwise_cons.mpr ⟨?_, ih (fun c hc => h c (by simp [hc])) hl'.2⟩
      intro c hc
      rcases List.mem_cons.mp ((insertSorted_perm cmp a l).mem_iff.mp hc) with rfl | hc'
      · exact hab.le
      · exact hl'.1 c hc'
    · rename_i hgt
      have hab : key b ≤ key a := not_lt.mp fun hlt => hgt (hb.mpr hlt)
      refine List.pairwise_cons.mpr ⟨?_, hl⟩
      intro c hc
      rcases List.mem_cons.mp hc with rfl | hc'
      · exact hab
      · exact (hl'.1 c hc').trans hab

theorem sort_pairwise (key : α → ℝ) (l : List α)
    (h : ∀ a ∈ l, ∀ b ∈ l, (cmp a b = .gt ↔ key a < key b)) :
    (sort cmp l).Pairwise fun x y => key y ≤ key x := by
  induction l with
  | nil => simp [sort]
  | cons a l ih =>
    simp only [sort]
    refine insertSorted_pairwise cmp key a _ ?_ ?_
    · intro b hb
      exact h a (by simp) b (by simp [(mem_sort cmp).mp hb])
    · exact ih fun x hx y hy => h x (by simp [hx]) y (by simp [hy])

/-- An inserted element lands in front of every element it does not have to follow. -/
theorem pair_sublist_insertSorted (a y : α) (l : List α) (hy : y ∈ l) (h : cmp a y ≠ .gt) :
    [a, y].Sublist (insertSorted cmp a l) := by
  induction l with
  | nil => simp at hy
  | cons b l ih =>
    simp only [insertSorted]
    split
    · rename_i hgt
      rcases List.mem_cons.mp hy with rfl | hy'
      · exact absurd hgt h
      · exact (ih hy').cons b
    · exact List.Sublist.cons₂ a (List.singleton_sublist.mpr hy)

theorem sublist_insertSorted (a : α) (l : List α) : l.Sublist (insertSorted cmp a l) := by
  induction l with
  | nil => simp
  | cons b l ih =>
    simp only [insertSorted]
    split
    · exact ih.cons₂ b
    · exact List.sublist_cons_self a _

/-- Stability: two elements that the comparator does not order keep their order. -/
theorem pair_sublist_sort (x y : α) (l : List α) (hxy : [x, y].Sublist l)
    (h : cmp x y ≠ .gt) : [x, y].Sublist (sort cmp l) := by
  induction l with
  | nil => simp at hxy
  | cons a l ih =>
    simp only [sort]
    cases hxy with
    | cons _ hl => exact (ih hl).trans (sublist_insertSorted cmp a _)
    | cons₂ _ hl =>
      have hy : y ∈ l := List.singleton_sublist.mp hl
      exact pair_sublist_insertSorted cmp x y _ ((mem_sort cmp).mpr hy) h

end StableSort

/-- In a list without repetition, a pair in order whose second element is among the
first `k` elements lies in order among the first `k` elements. -/
theorem pair_sublist_take {α : Type} (x y : α) (l : List α) (k : Nat) (hl : l.Nodup)
    (hxy : [x, y].Sublist l) (hy : y ∈ l.take k) : [x, y].Sublist (l.take k) := by
  have hsplit : l = l.take k ++ l.drop k := (List.take_append_drop k l).symm
  have hdisj : y ∉ l.drop k := by
    intro hd
    rw [hsplit] at hl
    exact (List.nodup_append.mp hl).2.2 hy hd
  rw [hsplit] at hxy
  obtain ⟨p, q, hpq, hp, hq⟩ := List.sublist_append_iff.mp hxy
  match p, hpq with
  | [], hpq =>
    simp only [List.nil_append] at hpq
    subst hpq
    exact absurd (hq.subset (by simp)) hdisj
  | [x'], hpq =>
    simp only [List.singleton_append, List.cons.injEq] at hpq
    obtain ⟨rfl, rfl⟩ := hpq
    exact absurd (hq.subset (by simp)) hdisj
  | [x', y'], hpq =>
    simp only [List.cons_append, List.cons.injEq, List.nil_append] at hpq
    obtain ⟨rfl, rfl, _⟩ := hpq
    exact hp
  | x' :: y' :: z :: r, hpq =>
    simp at hpq

/-! ## Facts about the embedding and the scores -/

theorem createSimpleEmbedding_length (text : String) :
    (createSimpleEmbedding text).length = 28 := by
  simp [createSimpleEmbedding, vocabulary]

theorem createSimpleEmbedding_nonneg (text : String) :
    ∀ x ∈ createSimpleEmbedding text, 0 ≤ x := by
  intro x hx
  simp only [createSimpleEmbedding, List.mem_map] at hx
  obtain ⟨word, _, rfl⟩ := hx
  exact Int.ofNat_nonneg _

theorem scores_length (query : String) : (scores query).length = 12 := by
  simp [scores, BUSINESS_DATA]

theorem scores_map_id (query : String) :
    (scores query).map (fun d => d.id) = [1, 2, 3, 4, 5, 6, 7, 8, 9, 10, 11, 12] := by
  simp [scores, BUSINESS_DATA]

theorem scores_nodup (query : String) : (scores query).Nodup := by
  apply List.Nodup.of_map fun d : ScoredDoc => d.id
  rw [scores_map_id]
  decide

theorem scores_wellFormed (query : String) : ∀ d ∈ scores query, d.score.WellFormed := by
  intro d hd
  simp only [scores, List.mem_map] at hd
  obtain ⟨doc, _, rfl⟩ := hd
  exact Similarity.orZero_wellFormed (cosineSimilarity_wellFormed _ _)

theorem byScoreDesc_eq_gt_iff (query : String) :
    ∀ a ∈ scores query, ∀ b ∈ scores query,
      (byScoreDesc a b = .gt ↔ a.score.toReal < b.score.toReal) := by
  intro a ha b hb
  exact Similarity.compare_eq_gt_iff (scores_wellFormed query b hb) (scores_wellFormed query a ha)

theorem docEmbeddings_eq :
    BUSINESS_DATA.map (fun doc => createSimpleEmbedding doc.content) = docEmbeddings := by
  decide!

theorem zipWith_map_self {α β γ : Type} (f : α → β → γ) (g : α → β) (l : List α) :
    List.zipWith f l (l.map g) = l.map fun a => f a (g a) := by
  induction l with
  | nil => rfl
  | cons a l ih => simp [ih]

theorem scores_eq_scoresFrom (query : String) :
    scores query = scoresFrom (createSimpleEmbedding query) := by
  unfold scoresFrom
  rw [← docEmbeddings_eq, zipWith_map_self]
  rfl

/-- A query whose embedding is all zero gives every entry the literal `0`. -/
theorem scores_eq_zeroScores (query : String)
    (h : ∀ x ∈ createSimpleEmbedding query, x = 0) : scores query = zeroScores := by
  unfold scores zeroScores
  apply List.map_congr_left
  intro doc _
  have hlen : (createSimpleEmbedding query).length
      = (createSimpleEmbedding doc.content).length := by
    rw [createSimpleEmbedding_length, createSimpleEmbedding_length]
  have hz : cosineSimilarity (createSimpleEmbedding query) (createSimpleEmbedding doc.content)
      = .zero := by
    rw [cosineSimilarity_eq _ _ hlen, dotSum_self_eq_zero _ h]
    simp
  simp only [hz]
  rfl

/-- C1. For every query and every `k`, `retrieveRelevantDocs query k` has exactly
`min k 12` entries, hence at most `k` and at most the 12 entries of `BUSINESS_DATA`,
and the scores of its entries do not increase from first to last. -/
theorem retrieveRelevantDocs_length_sorted (query : String) (k : Nat) :
    (retrieveRelevantDocs query k).length = min k 12 ∧
    (retrieveRelevantDocs query k).length ≤ k ∧
    (retrieveRelevantDocs query k).length ≤ BUSINESS_DATA.length ∧
    (retrieveRelevantDocs query k).Pairwise fun a b => b.score.toReal ≤ a.score.toReal := by
  have hlen : (retrieveRelevantDocs query k).length = min k 12 := by
    simp [retrieveRelevantDocs, sort_length, scores_length]
  refine ⟨hlen, ?_, ?_, ?_⟩
  · rw [hlen]
    exact min_le_left _ _
  · rw [hlen]
    exact min_le_right _ _
  · exact (sort_pairwise byScoreDesc (fun d => d.score.toReal) (scores query)
      (byScoreDesc_eq_gt_iff query)).sublist (List.take_sublist _ _)

/-- C2. Ties keep the order of `BUSINESS_DATA`.  The scored entries are the entries of
`BUSINESS_DATA` in store order; when `x` comes before `y` among them, both have the
same score and `y` is returned, then `x` is returned too, ahead of `y`.  For a query
whose embedding is all zero every score is the literal `0` and the three entries
returned are those with ids 1, 2, 3, in that order; "hello" is such a query. -/
theorem retrieveRelevantDocs_ties_store_order :
    (∀ query : String, (scores query).map (fun d => d.toDoc) = BUSINESS_DATA) ∧
    (∀ (query : String) (k : Nat) (x y : ScoredDoc),
      [x, y].Sublist (scores query) → x.score.toReal = y.score.toReal →
      y ∈ retrieveRelevantDocs query k → [x, y].Sublist (retrieveRelevantDocs query k)) ∧
    (∀ query : String, (∀ x ∈ createSimpleEmbedding query, x = 0) →
      (∀ d ∈ scores query, d.score = Similarity.zero) ∧
      (retrieveRelevantDocs query 3).map (fun d => d.id) = [1, 2, 3]) ∧
    createSimpleEmbedding "hello" = List.replicate 28 0 ∧
    (retrieveRelevantDocs "hello" 3).map (fun d => d.id) = [1, 2, 3] := by
  have hzero : ∀ query : String, (∀ x ∈ createSimpleEmbedding query, x = 0) →
      (∀ d ∈ scores query, d.score = Similarity.zero) ∧
      (retrieveRelevantDocs query 3).map (fun d => d.id) = [1, 2, 3] := by
    intro query h
    unfold retrieveRelevantDocs
    rw [scores_eq_zeroScores query h]
    exact ⟨by decide!, by decide!⟩
  have hhello : createSimpleEmbedding "hello" = List.replicate 28 0 := by decide!
  refine ⟨?_, ?_, hzero, hhello, (hzero "hello" ?_).2⟩
  · intro query
    simp [scores, Function.comp_def]
  · intro query k x y hxy heq hy
    have hx : x ∈ scores query := hxy.subset (by simp)
    have hy' : y ∈ scores query := hxy.subset (by simp)
    have hne : byScoreDesc x y ≠ .gt := by
      intro hgt
      have := (byScoreDesc_eq_gt_iff query x hx y hy').mp hgt
      rw [heq] at this
      exact lt_irrefl _ this
    have hnodup : (sort byScoreDesc (scores query)).Nodup :=
      (sort_perm byScoreDesc (scores query)).nodup_iff.mpr (scores_nodup query)
    exact pair_sublist_take x y _ k hnodup (pair_sublist_sort byScoreDesc x y _ hxy hne) hy
  · rw [hhello]
    decide

theorem retrieveRelevantDocs_ties_store_order_witness :
    [({ BUSINESS_DATA[0] with score := .zero } : ScoredDoc),
      { BUSINESS_DATA[1] with score := .zero }].Sublist (retrieveRelevantDocs "price" 3) :=
  retrieveRelevantDocs_ties_store_order.2.1 "price" 3 _ _
    (by rw [scores_eq_scoresFrom]; decide!) rfl
    (by unfold retrieveRelevantDocs; rw [scores_eq_scoresFrom]; decide!)

/-! ## Cosine similarity -/

/-- C5. For a vector of integers with a nonzero component, `cosineSimilarity vec vec`
is the quotient of `dot(vec, vec)` by the product of its two square roots, and over
the real numbers that quotient is 1. -/
theorem cosineSimilarity_self (vec : List Int) (h : ∃ x ∈ vec, x ≠ 0) :
    cosineSimilarity vec vec = .ratio (dotSum vec vec) (dotSum vec vec) (dotSum vec vec) ∧
    (dotSum vec vec : ℝ) / (Real.sqrt (dotSum vec vec) * Real.sqrt (dotSum vec vec)) = 1 ∧
    (cosineSimilarity vec vec).toReal = 1 := by
  have hpos := dotSum_self_pos vec h
  have hr : (0 : ℝ) < (dotSum vec vec : ℝ) := by exact_mod_cast hpos
  have hcos : cosineSimilarity vec vec
      = .ratio (dotSum vec vec) (dotSum vec vec) (dotSum vec vec) := by
    rw [cosineSimilarity_eq vec vec rfl]
    simp [hpos.ne']
  have hone : (dotSum vec vec : ℝ)
      / (Real.sqrt (dotSum vec vec) * Real.sqrt (dotSum vec vec)) = 1 := by
    rw [Real.mul_self_sqrt hr.le]
    exact div_self hr.ne'
  refine ⟨hcos, hone, ?_⟩
  rw [hcos]
  exact hone

theorem cosineSimilarity_self_witness :
    (∃ x ∈ ([3, 0, 4] : List Int), x ≠ 0) ∧ (cosineSimilarity [3, 0, 4] [3, 0, 4]).toReal = 1 :=
  ⟨by decide, (cosineSimilarity_self [3, 0, 4] (by decide)).2.2⟩

/-- C10, as stated with 27 components, fails: the embedding of "nfc card" does not
have 27 components. -/
theorem createSimpleEmbedding_length_ne_27 :
    (createSimpleEmbedding "nfc card").length ≠ 27 := by
  rw [createSimpleEmbedding_length]
  decide

/-- C10, amended. For every input string `createSimpleEmbedding` returns a vector of
exactly 28 components, the size of the vocabulary, each of them an integer that is
not negative, and equal inputs give equal vectors. -/
theorem createSimpleEmbedding_shape (text : String) :
    (createSimpleEmbedding text).length = 28 ∧ vocabulary.length = 28 ∧
    (∀ x ∈ createSimpleEmbedding text, 0 ≤ x) ∧
    (∀ text' : String, text' = text →
      createSimpleEmbedding text' = createSimpleEmbedding text) := by
  refine ⟨createSimpleEmbedding_length text, by decide, createSimpleEmbedding_nonneg text, ?_⟩
  intro text' h
  rw [h]

theorem createSimpleEmbedding_shape_witness :
    (createSimpleEmbedding "nfc card").length = 28 ∧
    createSimpleEmbedding "nfc card" = createSimpleEmbedding "nfc card" :=
  ⟨(createSimpleEmbedding_shape "nfc card").1,
    (createSimpleEmbedding_shape "nfc card").2.2.2 "nfc card" rfl⟩

/-! ## Reference queries -/

/-- C7. For the query "price" the first entry returned by `retrieveRelevantDocs` with
`topK = 3` is the entry with id 3 and category "pricing"; it is the only entry with a
score that is not the literal `0`. -/
theorem retrieve_price_top :
    ((retrieveRelevantDocs "price" 3).head?.map fun d => (d.id, d.category))
      = some (3, "pricing") ∧
    (retrieveRelevantDocs "price" 3).map (fun d => (d.id, d.score))
      = [(3, .ratio 1 1 38), (1, .zero), (2, .zero)] := by
  unfold retrieveRelevantDocs
  rw [scores_eq_scoresFrom]
  decide!

/-- C8, as stated, fails: for "How much does a card cost?" the three entries returned
do not contain both the entry with id 3 and the entry with id 8. -/
theorem card_cost_top3_misses_pricing :
    ¬ ((∃ d ∈ retrieveRelevantDocs "How much does a card cost?" 3, d.id = 3) ∧
       (∃ d ∈ retrieveRelevantDocs "How much does a card cost?" 3, d.id = 8)) := by
  unfold retrieveRelevantDocs
  rw [scores_eq_scoresFrom]
  decide!

/-- C8, amended. For "How much does a card cost?" the three entries returned are those
with ids 1, 2, 6, in that order; in the full ranking the entry with id 8 is sixth and
the entry with id 3 is eighth.  The context is the contents of entries 1, 2 and 6
joined by a blank line and includes the content of neither entry 3 nor entry 8. -/
theorem card_cost_top3 :
    (retrieveRelevantDocs "How much does a card cost?" 3).map (fun d => d.id) = [1, 2, 6] ∧
    (retrieveRelevantDocs "How much does a card cost?" 12).map (fun d => d.id)
      = [1, 2, 6, 11, 7, 8, 9, 3, 12, 10, 5, 4] ∧
    context "How much does a card cost?"
      = "\n\n".intercalate
          ((BUSINESS_DATA.filter fun d => d.id = 1 ∨ d.id = 2 ∨ d.id = 6).map fun d => d.content) ∧
    (∀ d ∈ BUSINESS_DATA, d.id = 3 ∨ d.id = 8 →
      includes (context "How much does a card cost?").toList d.content.toList = false) := by
  unfold context retrieveRelevantDocs
  rw [scores_eq_scoresFrom]
  decide!

/-! ## Response generation -/

theorem fixed_messages_ne_empty :
    rephraseMessage ≠ "" ∧ highTrafficMessage ≠ "" ∧ troubleMessage ≠ "" := by
  decide

/-- C9. `generateResponse` is a total function to strings and its result is never
empty, whatever the user message and the outcome of the completion call: a failure
with status 429 gives the high-traffic message, every other failure and a missing
content give the trouble-processing message, a content that is empty after trimming
gives the rephrase message, and any other content gives its trimmed text. -/
theorem generateResponse_total (post : String → String → Completion) (userMessage : String) :
    generateResponse post userMessage ≠ "" ∧
    (post (systemPrompt (context userMessage)) userMessage = .failure (some 429) →
      generateResponse post userMessage = highTrafficMessage) ∧
    (∀ status : Option Nat, status ≠ some 429 →
      post (systemPrompt (context userMessage)) userMessage = .failure status →
      generateResponse post userMessage = troubleMessage) ∧
    (post (systemPrompt (context userMessage)) userMessage = .missingContent →
      generateResponse post userMessage = troubleMessage) ∧
    (∀ content : String,
      post (systemPrompt (context userMessage)) userMessage = .success content →
      (trim content.toList = [] → generateResponse post userMessage = rephraseMessage) ∧
      (trim content.toList ≠ [] →
        generateResponse post userMessage = String.mk (trim content.toList))) := by
  have hstr : ∀ l : List Char, String.mk l = "" ↔ l = [] := by
    intro l
    constructor
    · intro h
      exact congrArg String.data h
    · intro h
      rw [h]
  have hsucc : ∀ content : String,
      post (systemPrompt (context userMessage)) userMessage = .success content →
      (trim content.toList = [] → generateResponse post userMessage = rephraseMessage) ∧
      (trim content.toList ≠ [] →
        generateResponse post userMessage = String.mk (trim content.toList)) := by
    intro content h
    constructor
    · intro ht
      have ht' : String.mk (trim content.toList) = "" := (hstr _).mpr ht
      simp only [generateResponse, h]
      rw [if_pos ht']
    · intro ht
      have ht' : ¬ String.mk (trim content.toList) = "" := fun e => ht ((hstr _).mp e)
      simp only [generateResponse, h]
      rw [if_neg ht']
  have hfail : ∀ status : Option Nat,
      post (systemPrompt (context userMessage)) userMessage = .failure status →
      generateResponse post userMessage
        = if status = some 429 then highTrafficMessage else troubleMessage := by
    intro status h
    simp only [generateResponse, h]
  have hmiss : post (systemPrompt (context userMessage)) userMessage = .missingContent →
      generateResponse post userMessage = troubleMessage := by
    intro h
    simp only [generateResponse, h]
  refine ⟨?_, ?_, ?_, hmiss, hsucc⟩
  · cases hpost : post (systemPrompt (context userMessage)) userMessage with
    | success content =>
      by_cases ht : trim content.toList = []
      · rw [(hsucc content hpost).1 ht]
        exact fixed_messages_ne_empty.1
      · rw [(hsucc content hpost).2 ht]
        exact fun e => ht ((hstr _).mp e)
    | missingContent =>
      rw [hmiss hpost]
      exact fixed_messages_ne_empty.2.2
    | failure status =>
      rw [hfail status hpost]
      split
      · exact fixed_messages_ne_empty.2.1
      · exact fixed_messages_ne_empty.2.2
  · intro h
    rw [hfail _ h, if_pos rfl]
  · intro status hs h
    rw [hfail _ h, if_neg hs]

theorem generateResponse_total_witness :
    generateResponse (fun _ _ => .failure (some 429)) "How much does a card cost?"
        = highTrafficMessage ∧
    generateResponse (fun _ _ => .failure none) "How much does a card cost?"
        = troubleMessage ∧
    generateResponse (fun _ _ => .success "  \n") "How much does a card cost?"
        = rephraseMessage ∧
    generateResponse (fun _ _ => .success " 500 Taka. \n") "How much does a card cost?"
        = "500 Taka." :=
  ⟨(generateResponse_total (fun _ _ => .failure (some 429)) _).2.1 rfl,
    (generateResponse_total (fun _ _ => .failure none) _).2.2.1 none (by decide) rfl,
    ((generateResponse_total (fun _ _ => .success "  \n") _).2.2.2.2 _ rfl).1 (by decide),
    ((generateResponse_total (fun _ _ => .success " 500 Taka. \n") _).2.2.2.2 _ rfl).2
      (by decide)⟩

end Server
